import Mathlib

/-!
Shallow embedding of `.github/scripts/check-md-code-blocks.js`
(repository `example-check-issue-md-code-block`).

The repository ships two variants of the script: an auto-fix variant
(`fixCodeBlocks` + a `main` that rewrites the issue/PR body) and a
scan-only variant (same scanner, a `main` that only posts/updates a
warning comment and fails the check).  Both are embedded here.

Modelling conventions:
* a JS string is a Lean `String`; `body.split('\n')` is `String.splitOn "\n"`,
  `join('\n')` is `String.intercalate "\n"`;
* JS lengths/slices are counted in UTF-16 code units, Lean counts characters;
  the two agree on all strings whose characters lie in the basic plane,
  which covers every constant the script manipulates;
* the regexes are anchored (`/^```(\s*)$/` and `/^```(\S*)/`) so they are
  embedded as explicit character-list computations;
* the GitHub REST client is an external collaborator: it is modelled by the
  full comment list of the thread (pages are slices of that list) together
  with optional failure outcomes for each remote operation; a thrown
  exception is an `Except.error`, caught by the top-level handler.
-/

namespace CheckMdCodeBlocks

/-- The characters matched by the JS `\s` class (and removed by
`String.prototype.trim`): ASCII whitespace plus the Unicode space
separators, the line separators, and the BOM. -/
def jsWhitespace (c : Char) : Bool :=
  c = ' ' || c = '\t' || c = '\n' || c = '\r' ||
  c.toNat = 0x0b || c.toNat = 0x0c ||
  c.toNat = 0xa0 || c.toNat = 0x1680 ||
  (0x2000 ≤ c.toNat && c.toNat ≤ 0x200a) ||
  c.toNat = 0x2028 || c.toNat = 0x2029 ||
  c.toNat = 0x202f || c.toNat = 0x205f ||
  c.toNat = 0x3000 || c.toNat = 0xfeff

/-- `s.trim()` of JS: strip `jsWhitespace` characters from both ends. -/
def jsTrim (s : String) : String :=
  String.mk (((s.data.dropWhile jsWhitespace).reverse.dropWhile jsWhitespace).reverse)

/-- The fence marker: three backticks. -/
def fenceMarker : String := "```"

/-- `line.startsWith('```')`; also exactly when `/^```(\S*)/` matches,
since the capture group may be empty. -/
def startsWithTicks (line : String) : Bool :=
  decide (line.data.take 3 = fenceMarker.data)

/-- The capture of `/^```(\S*)/`: the maximal run of non-whitespace
characters immediately after the opening marker.  (Only meaningful on
lines where `startsWithTicks` holds.) -/
def fenceLang (line : String) : String :=
  String.mk ((line.data.drop 3).takeWhile (fun c => !jsWhitespace c))

/-- `line.match(/^```(\s*)$/) !== null`: the whole line is three backticks
followed by whitespace only. -/
def matchesEmptyFence (line : String) : Bool :=
  startsWithTicks line && (line.data.drop 3).all jsWhitespace

def MARKER : String := "<!-- markdown-code-block-checker -->"

def MAX_CODE_PREVIEW : Nat := 50

def LOAD_COMMENTS_PER_PAGE : Nat := 10

/-- Splitting a character list at each newline; the underlying computation
of `body.split('\n')` (a single-character separator, so the JS regex-free
split is exactly this). -/
def splitNlChars : List Char → List (List Char)
  | [] => [[]]
  | c :: cs =>
    let r := splitNlChars cs
    if c = '\n' then [] :: r
    else
      match r with
      | [] => [[c]]
      | h :: t => (c :: h) :: t

/-- `body.split('\n')`. -/
def splitLines (body : String) : List String :=
  (splitNlChars body.data).map String.mk

/-- `lines.join('\n')`. -/
def joinLines : List String → String
  | [] => ""
  | [l] => l
  | l :: ls => l ++ "\n" ++ joinLines ls

/-- The condition of the preview loop in `findMissingLangBlocks`:
`lines[j].trim() && !lines[j].startsWith('```')`. -/
def previewQual (line : String) : Bool :=
  decide (jsTrim line ≠ "") && !startsWithTicks line

/-- The preview loop of `findMissingLangBlocks` (lines 54–59 of the
source): starting just after the offending fence-open, find the first
line that is non-empty after trimming and does not start with the fence
marker; its trimmed content is the preview, or `""` if none exists
before the end of the body. -/
def previewLine : List String → String
  | [] => ""
  | l :: ls => if previewQual l then jsTrim l else previewLine ls

/-- Truncation of the preview (lines 60–62 of the source):
`codePreview.slice(0, MAX_CODE_PREVIEW) + '...'` when longer than
`MAX_CODE_PREVIEW`. -/
def truncatePreview (s : String) : String :=
  if s.length > MAX_CODE_PREVIEW then String.mk (s.data.take MAX_CODE_PREVIEW) ++ "..." else s

/-- The scanner loop of `findMissingLangBlocks` (lines 45–72): walk the
lines with an `insideCode` flag; a line starting with the marker while
outside is a fence-open (recording a violation `(i+1, preview)` when its
language capture is empty), while inside it is a fence-close.  `i` is the
0-based index of the head of the list in the full body. -/
def scanLoop : List String → Nat → Bool → List (Nat × String)
  | [], _, _ => []
  | l :: ls, i, insideCode =>
    if startsWithTicks l then
      if !insideCode then
        if fenceLang l = "" then
          (i + 1, truncatePreview (previewLine ls)) :: scanLoop ls (i + 1) true
        else
          scanLoop ls (i + 1) true
      else
        scanLoop ls (i + 1) false
    else
      scanLoop ls (i + 1) insideCode

/-- The violations of a body as (1-based line number, preview) pairs. -/
def scanViolations (body : String) : List (Nat × String) :=
  scanLoop (splitLines body) 0 false

/-- The error string pushed for one violation (lines 63–65):
``Line ${i + 1}: Missing language for code block. Code starts with: "${codePreview}"``. -/
def violationMessage (n : Nat) (preview : String) : String :=
  "Line " ++ toString n ++ ": Missing language for code block. Code starts with: \"" ++
    preview ++ "\""

/-- `findMissingLangBlocks(body)` (lines 41–74): the list of violation
messages, in ascending line order. -/
def findMissingLangBlocks (body : String) : List String :=
  (scanViolations body).map (fun v => violationMessage v.1 v.2)

/-- The loop body of `fixCodeBlocks` (lines 28–37).  Note the state
machine is NOT the scanner's: a line is rewritten (to "```python") and
enters the fence exactly when it matches `/^```(\s*)$/` while
`insideCode` is false; a line starting with the marker while
`insideCode` is true leaves the fence; any other marker line — in
particular a labelled fence-open seen while outside — leaves the flag
unchanged.  Returns the rewritten lines and whether any rewrite occurred. -/
def fixLoop : List String → Bool → List String × Bool
  | [], _ => ([], false)
  | l :: ls, insideCode =>
    if matchesEmptyFence l && !insideCode then
      let r := fixLoop ls true
      ("```python" :: r.1, true)
    else if startsWithTicks l && insideCode then
      let r := fixLoop ls false
      (l :: r.1, r.2)
    else
      let r := fixLoop ls insideCode
      (l :: r.1, r.2)

/-- `fixCodeBlocks(body)` (lines 22–39): `{ fixedBody, fixed }`. -/
def fixCodeBlocks (body : String) : String × Bool :=
  let r := fixLoop (splitLines body) false
  (joinLines r.1, r.2)

/-- The fence-open lines of a body, per the scanner's state machine: the
lines at which the scanner transitions outside→inside. -/
def openLines : List String → Bool → List String
  | [], _ => []
  | l :: ls, insideCode =>
    if startsWithTicks l then
      if !insideCode then l :: openLines ls true
      else openLines ls false
    else openLines ls insideCode

/-- A GitHub comment author record, as far as the script inspects it:
`comment.user.type` and `comment.user.login`. -/
structure User where
  type : String
  login : String
deriving DecidableEq

/-- A GitHub comment, as far as the script inspects it.  A missing or
null `user` is `none`; a missing/null/empty `body` is `""` (the script
only ever tests `comment.body` for truthiness and substring containment,
on which the two encodings agree). -/
structure Comment where
  id : Nat
  user : Option User
  body : String
deriving DecidableEq

/-- Whether `p` is an initial segment of `s` (character lists). -/
def startsWithChars : List Char → List Char → Bool
  | _, [] => true
  | [], _ :: _ => false
  | c :: cs, p :: ps => c = p && startsWithChars cs ps

/-- Whether `pat` occurs somewhere in the list. -/
def containsChars (pat : List Char) : List Char → Bool
  | [] => startsWithChars [] pat
  | c :: cs => startsWithChars (c :: cs) pat || containsChars pat cs

/-- `s.includes(pat)`. -/
def strContains (s pat : String) : Bool :=
  containsChars pat.data s.data

/-- `isBotComment(comment, actor)` (lines 10–20): the author is a Bot
account, the well-known Actions bot, or the workflow actor, and the body
contains the marker token. -/
def isBotComment (c : Comment) (actor : String) : Bool :=
  (match c.user with
   | some u => u.type == "Bot" || u.login == "github-actions[bot]" || u.login == actor
   | none => false)
  && c.body != "" && strContains c.body MARKER

/-- The inner `for` loop of `getCheckerComment` with its `break`: the
first comment of the page recognized as the bot's. -/
def findFirstBot (cs : List Comment) (actor : String) : Option Comment :=
  cs.find? (fun c => isBotComment c actor)

/-- `octokit.issues.listComments` with `per_page = LOAD_COMMENTS_PER_PAGE`:
page `page` (1-based) of the thread's full comment list. -/
def fetchPage (all : List Comment) (page : Nat) : List Comment :=
  (all.drop ((page - 1) * LOAD_COMMENTS_PER_PAGE)).take LOAD_COMMENTS_PER_PAGE

/-- The `while (true)` pagination loop of `getCheckerComment`
(lines 79–96), with explicit fuel.  The loop breaks when a page is
empty, when a qualifying comment is found, or when a page has fewer
than 100 comments; pages are at most `LOAD_COMMENTS_PER_PAGE` long, so
every page is empty once `(page-1)*10` reaches the list length and fuel
`all.length + 1` is never exhausted. -/
def getCheckerLoop (all : List Comment) (actor : String) : Nat → Nat → Option Comment
  | _, 0 => none
  | page, fuel + 1 =>
    let comments := fetchPage all page
    if comments.length = 0 then none
    else
      match findFirstBot comments actor with
      | some c => some c
      | none =>
        if comments.length < 100 then none
        else getCheckerLoop all actor (page + 1) fuel

/-- `getCheckerComment(octokit, owner, repo, issue_number, actor)`
(lines 76–98), over the thread's full comment list. -/
def getCheckerComment (all : List Comment) (actor : String) : Option Comment :=
  getCheckerLoop all actor 1 (all.length + 1)

/-- The reconciliation decisions the script can take on the status
comment. -/
inductive Decision where
  | create (text : String)
  | update (id : Nat) (text : String)
  | delete (id : Nat)
  | noop
deriving DecidableEq

/-- The comment posted by the auto-fix variant after a repair
(lines 135–149), for `typ` = "issue" or "pull request". -/
def autofixNotice (typ : String) : String :=
  joinLines [MARKER,
    ":information_source: All code blocks without a language in this " ++ typ ++
      " description were set to `python` by default.",
    "",
    "**You must check if the language was guessed correctly.**",
    "",
    "> In the future, please specify the language after the opening triple backticks in your code snippets.",
    "",
    "Example:",
    "````markdown",
    "```python",
    "print(\"hello world\")",
    "```",
    "````"]

/-- The warning comment of the scan-only variant (lines 313–328 of the
source file, second document), embedding the violation messages. -/
def warnCommentBody (typ : String) (errors : List String) : String :=
  joinLines [MARKER,
    ":warning: **Some code blocks in this " ++ typ ++
      " description are missing a language identifier.**",
    "",
    "Please specify a language after the opening triple backticks in your code snippets. Example:",
    "````markdown",
    "```python",
    "print(\"hello world\")",
    "```",
    "````",
    "",
    "**Details:**",
    "```",
    joinLines errors,
    "```"]

/-- The all-clear comment of the scan-only variant (lines 330–334). -/
def okCommentBody : String :=
  joinLines [MARKER,
    ":white_check_mark: All code blocks look OK! Thanks for following the style guide."]

/-- The comment upsert of the auto-fix variant (lines 174–190): update
the existing status comment only when its text differs, create one when
none exists. -/
def upsertComment (checker : Option Comment) (text : String) : Decision :=
  match checker with
  | some c => if c.body ≠ text then Decision.update c.id text else Decision.noop
  | none => Decision.create text

/-- What one invocation of the auto-fix variant decides: optional body
rewrite, comment decision, and the `process.exit` code of the successful
path. -/
structure AutofixOutcome where
  bodyUpdate : Option String
  comment : Decision
  exit : Nat
deriving DecidableEq

/-- The decision logic of the auto-fix variant `main` (lines 120–207),
given the scanned body and the status comment found by
`getCheckerComment`: `fixCodeBlocks` runs only when the scan found
errors; the body is persisted and the notice upserted only when the scan
found errors AND the fixer rewrote something AND the rewritten body
differs; otherwise, if a status comment exists and the scan is clean, it
is deleted; otherwise nothing is mutated.  Every successful path exits 0. -/
def autofixReconcile (body : String) (checker : Option Comment) (typ : String) :
    AutofixOutcome :=
  let errors := findMissingLangBlocks body
  let fr := if 0 < errors.length then fixCodeBlocks body else (body, false)
  let commentBody := if 0 < errors.length then autofixNotice typ else ""
  if 0 < errors.length ∧ fr.2 = true ∧ body ≠ fr.1 then
    ⟨some fr.1, upsertComment checker commentBody, 0⟩
  else
    match checker with
    | some c => if errors.length = 0 then ⟨none, Decision.delete c.id, 0⟩
                else ⟨none, Decision.noop, 0⟩
    | none => ⟨none, Decision.noop, 0⟩

/-- The decision logic of the scan-only variant `main` (lines 255–363,
second document): compose the warning or all-clear text, update an
existing status comment when its text differs (never delete it), create
one only when errors exist, and exit 1 exactly when errors exist. -/
def scanOnlyReconcile (body : String) (checker : Option Comment) (typ : String) :
    Decision × Nat :=
  let errors := findMissingLangBlocks body
  let commentBody := if 0 < errors.length then warnCommentBody typ errors else okCommentBody
  let d := match checker with
    | some c => if c.body ≠ commentBody then Decision.update c.id commentBody
                else Decision.noop
    | none => if 0 < errors.length then Decision.create commentBody else Decision.noop
  (d, if 0 < errors.length then 1 else 0)

/-- The issue / pull-request record of the event payload, as far as the
script reads it (`body` and `number`; a null body is `""`). -/
structure Issue where
  body : String
  number : Nat

/-- The triggering event payload. -/
structure EventPayload where
  issue : Option Issue
  pull_request : Option Issue

/-- `event.issue?.body || event.pull_request?.body || ''`. -/
def eventBody (ev : EventPayload) : String :=
  let pb := match ev.pull_request with
    | some p => p.body
    | none => ""
  match ev.issue with
  | some i => if i.body = "" then pb else i.body
  | none => pb

/-- `event.issue ? "issue" : "pull request"`. -/
def eventType (ev : EventPayload) : String :=
  match ev.issue with
  | some _ => "issue"
  | none => "pull request"

/-- The environment variables the script reads; a missing variable is
`""` (JS reads `undefined`, and the script only tests truthiness or
passes the value on). -/
structure Env where
  token : String
  repoFull : String
  eventPath : String
  actor : String

/-- `!token || !repoFull || !eventPath` (lines 106–109). -/
def envMissing (e : Env) : Bool :=
  e.token == "" || e.repoFull == "" || e.eventPath == ""

/-- The remote service state for one invocation: the thread's full
comment list, and for each remote operation whether it throws
(`some message`) or succeeds (`none`). -/
structure Remote where
  allComments : List Comment
  listError : Option String
  updateBodyError : Option String
  createError : Option String
  updateError : Option String
  deleteError : Option String

/-- Executing a comment decision against the remote: the corresponding
endpoint may throw. -/
def execDecision (r : Remote) (d : Decision) : Except String Unit :=
  match d with
  | Decision.create _ =>
    match r.createError with
    | some e => Except.error e
    | none => Except.ok ()
  | Decision.update _ _ =>
    match r.updateError with
    | some e => Except.error e
    | none => Except.ok ()
  | Decision.delete _ =>
    match r.deleteError with
    | some e => Except.error e
    | none => Except.ok ()
  | Decision.noop => Except.ok ()

/-- Executing the optional body rewrite (`octokit.pulls.update` /
`octokit.issues.update`, lines 156–172). -/
def execBodyUpdate (r : Remote) (u : Option String) : Except String Unit :=
  match u with
  | none => Except.ok ()
  | some _ =>
    match r.updateBodyError with
    | some e => Except.error e
    | none => Except.ok ()

/-- One invocation of the auto-fix variant `main`: env check, scan, fix,
comment lookup, then mutations in source order (body update before
comment call); any thrown remote error propagates as `Except.error`. -/
def mainAutofix (env : Env) (ev : EventPayload) (r : Remote) :
    Except String AutofixOutcome :=
  if envMissing env then Except.ok ⟨none, Decision.noop, 1⟩
  else
    match r.listError with
    | some e => Except.error e
    | none =>
      let checker := getCheckerComment r.allComments env.actor
      let o := autofixReconcile (eventBody ev) checker (eventType ev)
      match execBodyUpdate r o.bodyUpdate with
      | Except.error e => Except.error e
      | Except.ok _ =>
        match execDecision r o.comment with
        | Except.error e => Except.error e
        | Except.ok _ => Except.ok o

/-- One invocation of the scan-only variant `main`. -/
def mainScanOnly (env : Env) (ev : EventPayload) (r : Remote) :
    Except String (Decision × Nat) :=
  if envMissing env then Except.ok (Decision.noop, 1)
  else
    match r.listError with
    | some e => Except.error e
    | none =>
      let checker := getCheckerComment r.allComments env.actor
      let o := scanOnlyReconcile (eventBody ev) checker (eventType ev)
      match execDecision r o.1 with
      | Except.error e => Except.error e
      | Except.ok _ => Except.ok o

/-- The exit code the OS observes from the auto-fix variant:
`main().catch(err => process.exit(1))` maps a propagated exception to 1. -/
def autofixExit (x : Except String AutofixOutcome) : Nat :=
  match x with
  | Except.ok o => o.exit
  | Except.error _ => 1

/-- The exit code the OS observes from the scan-only variant. -/
def scanExit (x : Except String (Decision × Nat)) : Nat :=
  match x with
  | Except.ok o => o.2
  | Except.error _ => 1

/-- Whether an invocation ran to completion without a thrown exception. -/
def exceptOk {α : Type} : Except String α → Bool
  | Except.ok _ => true
  | Except.error _ => false

/-! ### Lemmas about the scanner -/

/-- Every fence-open line per the scanner's state machine starts with the
fence marker and occurs in the body. -/
theorem mem_openLines (ls : List String) :
    ∀ (b : Bool) (l : String), l ∈ openLines ls b → startsWithTicks l = true ∧ l ∈ ls := by
  induction ls with
  | nil => intro b l h; simp [openLines] at h
  | cons x ls ih =>
    intro b l h
    cases hs : startsWithTicks x with
    | true =>
      cases b with
      | false =>
        simp only [openLines, hs, Bool.not_false, if_true] at h
        rcases List.mem_cons.mp h with rfl | h
        · exact ⟨hs, List.mem_cons_self _ _⟩
        · obtain ⟨h1, h2⟩ := ih true l h
          exact ⟨h1, List.mem_cons_of_mem _ h2⟩
      | true =>
        simp only [openLines, hs, Bool.not_true, if_true, if_false] at h
        obtain ⟨h1, h2⟩ := ih false l h
        exact ⟨h1, List.mem_cons_of_mem _ h2⟩
    | false =>
      simp only [openLines, hs, if_false] at h
      obtain ⟨h1, h2⟩ := ih b l h
      exact ⟨h1, List.mem_cons_of_mem _ h2⟩

/-- The scanner reports no violation exactly when every fence-open line
(per its own state machine) has a non-empty language capture. -/
theorem scanLoop_eq_nil_iff (ls : List String) :
    ∀ (i : Nat) (b : Bool),
      scanLoop ls i b = [] ↔ ∀ l ∈ openLines ls b, fenceLang l ≠ "" := by
  induction ls with
  | nil => intro i b; simp [scanLoop, openLines]
  | cons x ls ih =>
    intro i b
    cases hs : startsWithTicks x with
    | true =>
      cases b with
      | false =>
        by_cases hl : fenceLang x = ""
        · simp [scanLoop, openLines, hs, hl]
        · simp [scanLoop, openLines, hs, hl, ih]
      | true => simp [scanLoop, openLines, hs, ih]
    | false => simp [scanLoop, openLines, hs, ih]

/-- Every violation's preview is the (truncated) preview computed from
the lines strictly after the offending fence-open, and its line number
exceeds the starting index. -/
theorem scanLoop_mem (ls : List String) :
    ∀ (i : Nat) (b : Bool) (n : Nat) (p : String),
      (n, p) ∈ scanLoop ls i b →
      i < n ∧ p = truncatePreview (previewLine (ls.drop (n - i))) := by
  induction ls with
  | nil => intro i b n p h; simp [scanLoop] at h
  | cons x ls ih =>
    intro i b n p h
    have step : ∀ (b' : Bool), (n, p) ∈ scanLoop ls (i + 1) b' →
        i < n ∧ p = truncatePreview (previewLine ((x :: ls).drop (n - i))) := by
      intro b' hmem
      obtain ⟨hlt, hp⟩ := ih (i + 1) b' n p hmem
      refine ⟨by omega, ?_⟩
      have hdrop : (x :: ls).drop (n - i) = ls.drop (n - (i + 1)) := by
        have hni : n - i = (n - (i + 1)) + 1 := by omega
        rw [hni, List.drop_succ_cons]
      rw [hdrop]
      exact hp
    cases hs : startsWithTicks x with
    | true =>
      cases b with
      | false =>
        by_cases hl : fenceLang x = ""
        · simp only [scanLoop, hs, Bool.not_false, if_true, hl, List.mem_cons] at h
          rcases h with heq | h
          · obtain ⟨hn, hp⟩ := Prod.mk.injEq .. ▸ heq
            refine ⟨by omega, ?_⟩
            have : n - i = 1 := by omega
            rw [this, List.drop_succ_cons, List.drop_zero]
            exact hp
          · exact step true h
        · simp only [scanLoop, hs, Bool.not_false, if_true, hl, if_false] at h
          exact step true h
      | true =>
        simp only [scanLoop, hs, Bool.not_true, if_true, if_false] at h
        exact step false h
    | false =>
      simp only [scanLoop, hs, if_false] at h
      exact step b h

/-- If no line of the list qualifies as preview content, the preview
loop returns the empty string. -/
theorem previewLine_eq_nil_of_none (ls : List String)
    (h : ∀ l ∈ ls, previewQual l = false) : previewLine ls = "" := by
  induction ls with
  | nil => rfl
  | cons x ls ih =>
    have hx : previewQual x = false := h x (List.mem_cons_self _ _)
    simp only [previewLine, hx, if_false]
    exact ih fun l hl => h l (List.mem_cons_of_mem _ hl)

/-- The preview loop returns the trimmed content of the first qualifying
line, when one exists. -/
theorem previewLine_eq_find (ls : List String) :
    previewLine ls = ((ls.find? previewQual).map jsTrim).getD "" := by
  induction ls with
  | nil => rfl
  | cons x ls ih =>
    cases hx : previewQual x with
    | true => simp [previewLine, List.find?_cons_of_pos, hx]
    | false => simp [previewLine, List.find?_cons_of_neg, hx, ih]

/-! ### Lemmas about the reconcilers -/

/-- Every successful path of the auto-fix variant exits 0. -/
theorem autofixReconcile_exit (body typ : String) (checker : Option Comment) :
    (autofixReconcile body checker typ).exit = 0 := by
  cases checker with
  | none =>
    simp only [autofixReconcile]
    (repeat' split) <;> rfl
  | some c =>
    simp only [autofixReconcile]
    (repeat' split) <;> rfl

/-- The scan-only variant exits 1 exactly when the scan found errors. -/
theorem scanOnlyReconcile_exit (body typ : String) (checker : Option Comment) :
    (scanOnlyReconcile body checker typ).2 =
      (if findMissingLangBlocks body = [] then 0 else 1) := by
  by_cases h : findMissingLangBlocks body = []
  · simp [scanOnlyReconcile, h]
  · have hpos : 0 < (findMissingLangBlocks body).length := List.length_pos.mpr h
    simp [scanOnlyReconcile, h, hpos]

/-! ### Claims -/

/-- Claim C1 (refuted — code bug): on the body "```python\nx\n```" the
scanner records no violation and the only outside→inside fence-open line
is the labelled "```python", yet `fixCodeBlocks` rewrites line 3 — the
close marker of the labelled block — to "```python" and reports a fix.
The fixer's `else if` chain never sets `insideCode` on a labelled
fence-open, so its state machine is not the scanner's, and it rewrites a
line that is not an empty-token fence-open. -/
theorem fixer_rewrites_close_marker_of_labelled_fence :
    findMissingLangBlocks "```python\nx\n```" = []
    ∧ openLines (splitLines "```python\nx\n```") false = ["```python"]
    ∧ fixCodeBlocks "```python\nx\n```" = ("```python\nx\n```python", true) := by
  refine ⟨by decide, by decide, by decide⟩

/-- Claim C2: the scan result is empty iff every fence-open line (per the
scanner's alternating open/close state machine) carries a non-empty
language token immediately after the marker; in particular a body none of
whose lines starts with a triple-backtick marker yields an empty result. -/
theorem scan_empty_iff_opens_labelled (body : String) :
    (findMissingLangBlocks body = [] ↔
      ∀ l ∈ openLines (splitLines body) false, fenceLang l ≠ "")
    ∧ ((splitLines body).all (fun l => !startsWithTicks l) = true →
      findMissingLangBlocks body = []) := by
  have h1 : findMissingLangBlocks body = [] ↔ scanViolations body = [] := by
    simp [findMissingLangBlocks]
  have h2 : scanViolations body = [] ↔
      ∀ l ∈ openLines (splitLines body) false, fenceLang l ≠ "" :=
    scanLoop_eq_nil_iff (splitLines body) 0 false
  refine ⟨h1.trans h2, fun hall => ?_⟩
  rw [h1, h2]
  intro l hl
  obtain ⟨hticks, hmem⟩ := mem_openLines (splitLines body) false l hl
  have := List.all_eq_true.mp hall l hmem
  simp [hticks] at this

/-- Witness for C2 at a body without fence markers. -/
theorem scan_empty_iff_opens_labelled_witness :
    (splitLines "just text\nno fences here").all (fun l => !startsWithTicks l) = true
    ∧ findMissingLangBlocks "just text\nno fences here" = [] :=
  ⟨by decide, (scan_empty_iff_opens_labelled "just text\nno fences here").2 (by decide)⟩

/-- Claim C3 (refuted — code bug): the body "```js\na\n```" has an empty
scan result, yet `fixCodeBlocks` reports `fixed = true` and returns a
different body (it rewrites the close marker, see C1). -/
theorem fixer_changes_clean_body :
    findMissingLangBlocks "```js\na\n```" = []
    ∧ (fixCodeBlocks "```js\na\n```").2 = true
    ∧ (fixCodeBlocks "```js\na\n```").1 ≠ "```js\na\n```" := by
  refine ⟨by decide, by decide, by decide⟩

/-- Counterexample to claim C4: in the scan-only variant, with a clean
body and an existing status comment (id 5, text "old"), the decision is
to update the comment to the all-clear text — not to delete it. -/
theorem scan_only_clean_updates_not_deletes :
    (scanOnlyReconcile "hello" (some ⟨5, some ⟨"Bot", "helper"⟩, "old"⟩) "issue").1 =
      Decision.update 5 okCommentBody
    ∧ (scanOnlyReconcile "hello" (some ⟨5, some ⟨"Bot", "helper"⟩, "old"⟩) "issue").1 ≠
      Decision.delete 5 := by
  refine ⟨by decide, by decide⟩

/-- Claim C4 as amended: with an empty scan result and an existing status
comment, the auto-fix variant deletes the comment (its only remote
mutation), while the scan-only variant never deletes — it updates the
comment to the all-clear text when the text differs and otherwise leaves
it alone, exiting 0. -/
theorem clean_thread_reconciliation (body typ : String) (c : Comment)
    (h : findMissingLangBlocks body = []) :
    autofixReconcile body (some c) typ = ⟨none, Decision.delete c.id, 0⟩
    ∧ (scanOnlyReconcile body (some c) typ).1 =
      (if c.body = okCommentBody then Decision.noop
       else Decision.update c.id okCommentBody)
    ∧ (scanOnlyReconcile body (some c) typ).2 = 0 := by
  refine ⟨?_, ?_, ?_⟩
  · simp [autofixReconcile, h]
  · by_cases hb : c.body = okCommentBody <;> simp [scanOnlyReconcile, h, hb]
  · simp [scanOnlyReconcile_exit, h]

/-- Witness for the amended C4. -/
theorem clean_thread_reconciliation_witness :
    autofixReconcile "hello" (some ⟨5, some ⟨"Bot", "helper"⟩, "old"⟩) "issue" =
      ⟨none, Decision.delete 5, 0⟩ :=
  (clean_thread_reconciliation "hello" "issue" ⟨5, some ⟨"Bot", "helper"⟩, "old"⟩
    (by decide)).1

/-- Claim C5 (refuted — code bug): with ten non-qualifying comments on
page 1 and a qualifying bot comment on page 2, `getCheckerComment`
returns nothing: pages hold at most `LOAD_COMMENTS_PER_PAGE = 10`
comments, so the loop's `comments.length < 100` break always fires after
the first page and later pages are never fetched, although the
qualifying comment sits on page 2. -/
theorem pagination_stops_after_first_page :
    getCheckerComment (List.replicate 10 ⟨0, some ⟨"User", "alice"⟩, "hi"⟩ ++
      [⟨42, some ⟨"Bot", "helper"⟩, MARKER ++ " status"⟩]) "octocat" = none
    ∧ isBotComment ⟨42, some ⟨"Bot", "helper"⟩, MARKER ++ " status"⟩ "octocat" = true
    ∧ (⟨42, some ⟨"Bot", "helper"⟩, MARKER ++ " status"⟩ : Comment) ∈
      fetchPage (List.replicate 10 ⟨0, some ⟨"User", "alice"⟩, "hi"⟩ ++
        [⟨42, some ⟨"Bot", "helper"⟩, MARKER ++ " status"⟩]) 2 := by
  refine ⟨by decide, by decide, by decide⟩

/-- Counterexample to claim C6: on "```\n```\nhello" the sole violation's
preview is "hello", taken from the line after the matching close fence
(line 2), although no preview-qualifying line exists between the open and
the close. -/
theorem preview_taken_beyond_close_fence :
    splitLines "```\n```\nhello" = ["```", "```", "hello"]
    ∧ scanViolations "```\n```\nhello" = [(1, "hello")]
    ∧ (1, (("hello" : String))) ∈ scanViolations "```\n```\nhello" := by
  refine ⟨by decide, by decide, by decide⟩

/-- Truncation never turns a non-empty preview into the empty string. -/
theorem truncatePreview_ne_empty (s : String) (h : s ≠ "") : truncatePreview s ≠ "" := by
  unfold truncatePreview
  split
  · intro hc
    have hdata : s.data.take MAX_CODE_PREVIEW ++ "...".data = ([] : List Char) :=
      congrArg String.data hc
    simp at hdata
  · exact h

/-- Claim C6 as amended: for every violation, if no line that is
non-empty after trimming and does not start with a fence marker exists
between the fence-open and the end of input, the recorded preview is the
empty string; the search skips fence-marker lines and does not stop at
the matching close, so the preview may come from beyond it.  (Proved in
the stronger biconditional form: the preview is empty if and only if no
qualifying line follows the open anywhere before end of input.) -/
theorem preview_empty_iff_no_content_follows (body : String) (n : Nat) (p : String)
    (hmem : (n, p) ∈ scanViolations body) :
    p = "" ↔ ∀ l ∈ (splitLines body).drop n, previewQual l = false := by
  obtain ⟨-, hp⟩ := scanLoop_mem (splitLines body) 0 false n p hmem
  have hz : n - 0 = n := by omega
  rw [hz] at hp
  constructor
  · intro hpe
    intro l hl
    by_contra hql
    have hql' : previewQual l = true := by
      cases hq : previewQual l
      · exact absurd hq hql
      · rfl
    rcases hfind : ((splitLines body).drop n).find? previewQual with _ | l₀
    · rw [List.find?_eq_none] at hfind
      exact absurd hql' (by simpa using hfind l hl)
    · have hq₀ : previewQual l₀ = true := List.find?_some hfind
      have htrim : jsTrim l₀ ≠ "" := by
        have hq₀' := hq₀
        unfold previewQual at hq₀'
        exact of_decide_eq_true (Bool.and_eq_true .. |>.mp hq₀').1
      rw [previewLine_eq_find, hfind] at hp
      replace hp : p = truncatePreview (jsTrim l₀) := hp
      rw [hpe] at hp
      exact truncatePreview_ne_empty (jsTrim l₀) htrim hp.symm
  · intro hnone
    rw [hp, previewLine_eq_nil_of_none _ hnone]
    decide

/-- Witness for the amended C6: an unterminated empty fence followed only
by blank lines and markers yields the empty preview. -/
theorem preview_empty_iff_no_content_follows_witness :
    (1, ("" : String)) ∈ scanViolations "```\n\n   \n```"
    ∧ (("" : String) = "" ↔
      ∀ l ∈ (splitLines "```\n\n   \n```").drop 1, previewQual l = false) :=
  ⟨by decide, preview_empty_iff_no_content_follows "```\n\n   \n```" 1 "" (by decide)⟩

/-- Claim C7: for every violation, if the first following line that is
non-blank after trimming and not a fence-marker line has a trimmed
length above 50, the preview is its first 50 characters followed by
"..."; if the trimmed length is at most 50 the preview is the trimmed
line unchanged. -/
theorem preview_truncated_at_fifty (body : String) (n : Nat) (p l : String)
    (hmem : (n, p) ∈ scanViolations body)
    (hfind : ((splitLines body).drop n).find? previewQual = some l) :
    (50 < (jsTrim l).length → p = String.mk ((jsTrim l).data.take 50) ++ "...")
    ∧ ((jsTrim l).length ≤ 50 → p = jsTrim l) := by
  obtain ⟨-, hp⟩ := scanLoop_mem (splitLines body) 0 false n p hmem
  have hz : n - 0 = n := by omega
  rw [hz, previewLine_eq_find, hfind] at hp
  replace hp : p = truncatePreview (jsTrim l) := hp
  constructor
  · intro hlen
    have hgt : (jsTrim l).length > MAX_CODE_PREVIEW := hlen
    rw [hp, truncatePreview, if_pos hgt]
    rfl
  · intro hlen
    have hng : ¬(jsTrim l).length > MAX_CODE_PREVIEW := by
      simp only [MAX_CODE_PREVIEW]
      omega
    rw [hp, truncatePreview, if_neg hng]

/-- Witness for C7 at a 60-character code line: the preview is the first
50 characters plus the ellipsis. -/
theorem preview_truncated_at_fifty_witness :
    (1, String.mk (List.replicate 50 'a') ++ "...") ∈
      scanViolations ("```\n" ++ String.mk (List.replicate 60 'a'))
    ∧ String.mk (List.replicate 50 'a') ++ "..." =
      String.mk ((jsTrim (String.mk (List.replicate 60 'a'))).data.take 50) ++ "..." :=
  ⟨by decide,
   (preview_truncated_at_fifty ("```\n" ++ String.mk (List.replicate 60 'a')) 1
     (String.mk (List.replicate 50 'a') ++ "...")
     (String.mk (List.replicate 60 'a')) (by decide) (by decide)).1 (by decide)⟩

/-- Claim C8: when the scan found violations and a comment text is to be
posted, both variants create a comment when no status comment exists,
update it only when its text differs from the new text, and otherwise do
nothing: this is the auto-fix variant's upsert (with the fixed notice
text, reached when the fixer changed the body) and the scan-only
variant's comment step (with the warning text). -/
theorem comment_upsert_rules (body typ text : String) (c : Comment)
    (herr : findMissingLangBlocks body ≠ []) :
    upsertComment none text = Decision.create text
    ∧ upsertComment (some c) text =
      (if c.body = text then Decision.noop else Decision.update c.id text)
    ∧ (scanOnlyReconcile body none typ).1 =
      Decision.create (warnCommentBody typ (findMissingLangBlocks body))
    ∧ (scanOnlyReconcile body (some c) typ).1 =
      (if c.body = warnCommentBody typ (findMissingLangBlocks body) then Decision.noop
       else Decision.update c.id (warnCommentBody typ (findMissingLangBlocks body)))
    ∧ ((fixCodeBlocks body).2 = true → (fixCodeBlocks body).1 ≠ body →
      (autofixReconcile body none typ).comment = Decision.create (autofixNotice typ)
      ∧ (autofixReconcile body (some c) typ).comment =
        (if c.body = autofixNotice typ then Decision.noop
         else Decision.update c.id (autofixNotice typ))) := by
  have hpos : 0 < (findMissingLangBlocks body).length := List.length_pos.mpr herr
  refine ⟨rfl, ?_, ?_, ?_, ?_⟩
  · by_cases hb : c.body = text <;> simp [upsertComment, hb]
  · simp [scanOnlyReconcile, hpos]
  · by_cases hb : c.body = warnCommentBody typ (findMissingLangBlocks body) <;>
      simp [scanOnlyReconcile, hpos, hb]
  · intro hfix hne
    constructor
    · simp [autofixReconcile, hpos, hfix, Ne.symm hne, upsertComment, ne_comm.mp hne]
    · by_cases hb : c.body = autofixNotice typ <;>
        simp [autofixReconcile, hpos, hfix, ne_comm.mp hne, upsertComment, hb]

/-- Witness for C8 at the body "```\ncode\n```" (one unlabelled fence,
which the fixer does repair). -/
theorem comment_upsert_rules_witness :
    (scanOnlyReconcile "```\ncode\n```" none "issue").1 =
      Decision.create (warnCommentBody "issue" (findMissingLangBlocks "```\ncode\n```")) :=
  (comment_upsert_rules "```\ncode\n```" "issue" "t" ⟨7, none, "x"⟩ (by decide)).2.2.1

/-- Claim C9: the observed exit code is 1 when required environment
variables are missing, 1 when a remote call throws (via the top-level
catch), and otherwise 0 for the auto-fix variant (including when
violations were found and fixed, and when the thread was already clean),
while the scan-only variant exits 1 exactly when the scan found
violations. -/
theorem exit_code_contract (env : Env) (ev : EventPayload) (r : Remote) :
    autofixExit (mainAutofix env ev r) =
      (if envMissing env then 1
       else if exceptOk (mainAutofix env ev r) then 0 else 1)
    ∧ scanExit (mainScanOnly env ev r) =
      (if envMissing env then 1
       else if exceptOk (mainScanOnly env ev r) then
         (if findMissingLangBlocks (eventBody ev) = [] then 0 else 1)
       else 1) := by
  cases he : envMissing env with
  | true => simp [mainAutofix, mainScanOnly, autofixExit, scanExit, exceptOk, he]
  | false =>
    cases hl : r.listError with
    | some e => simp [mainAutofix, mainScanOnly, autofixExit, scanExit, exceptOk, he, hl]
    | none =>
      constructor
      · cases hbu : execBodyUpdate r (autofixReconcile (eventBody ev)
            (getCheckerComment r.allComments env.actor) (eventType ev)).bodyUpdate with
        | error e => simp [mainAutofix, autofixExit, exceptOk, he, hl, hbu]
        | ok u =>
          cases hd : execDecision r (autofixReconcile (eventBody ev)
              (getCheckerComment r.allComments env.actor) (eventType ev)).comment with
          | error e => simp [mainAutofix, autofixExit, exceptOk, he, hl, hbu, hd]
          | ok u' =>
            simp [mainAutofix, autofixExit, exceptOk, he, hl, hbu, hd,
              autofixReconcile_exit]
      · cases hd : execDecision r (scanOnlyReconcile (eventBody ev)
            (getCheckerComment r.allComments env.actor) (eventType ev)).1 with
        | error e => simp [mainScanOnly, scanExit, exceptOk, he, hl, hd]
        | ok u =>
          simp [mainScanOnly, scanExit, exceptOk, he, hl, hd, scanOnlyReconcile_exit]

/-- Claim C10: the body "``` foo" is reported by the scanner (the `\S*`
capture is empty although trailing content follows) but matches the
fixer's `/^```(\s*)$/` rewrite pattern on no line, so the auto-fix
variant changes nothing, performs no remote mutation, and exits 0 —
whether or not a status comment exists. -/
theorem scanner_strictly_broader_than_fixer :
    findMissingLangBlocks "``` foo" =
      ["Line 1: Missing language for code block. Code starts with: \"\""]
    ∧ fixCodeBlocks "``` foo" = ("``` foo", false)
    ∧ autofixReconcile "``` foo" none "issue" = ⟨none, Decision.noop, 0⟩
    ∧ autofixReconcile "``` foo" (some ⟨5, some ⟨"Bot", "helper"⟩, "old"⟩) "issue" =
      ⟨none, Decision.noop, 0⟩ := by
  refine ⟨by decide, by decide, by decide, by decide⟩

end CheckMdCodeBlocks
